import Mathlib

/-!
Shallow embedding of src/py/src/ttf2woff2.py (repository zkluck/fontsTrans).

Modelling conventions:
- Python strings are embedded as List Char (Unicode scalar values).
- File I/O is made explicit: the loaded input font is passed in as a value,
  reading the common-chars file is a function from path to an optional decoded
  character list (none models a UnicodeDecodeError during decoding), and a
  successful run returns the saved output (the path written and the font object)
  while a raised exception is an Except.error, in which case the code never
  reaches font.save and no output file is written.
- The fontTools subsetter is an external collaborator: the pipeline records the
  exact invocation (options profile and text) handed to it, and the in-place
  glyph rewriting itself is an abstract parameter of type Engine.
-/

namespace FontsTrans

/-- Unicode scalar values that CPython str.split treats as whitespace
(the Py_UNICODE_ISSPACE table): U+0009..U+000D, U+001C..U+001F, U+0020,
U+0085, U+00A0, U+1680, U+2000..U+200A, U+2028, U+2029, U+202F, U+205F,
U+3000. Note that U+FEFF is not in this table. -/
def isPySpace (ch : Char) : Bool :=
  let n := ch.toNat
  (0x9 ≤ n && n ≤ 0xD) || (0x1C ≤ n && n ≤ 0x1F) || n == 0x20 || n == 0x85 ||
    n == 0xA0 || n == 0x1680 || (0x2000 ≤ n && n ≤ 0x200A) || n == 0x2028 ||
    n == 0x2029 || n == 0x202F || n == 0x205F || n == 0x3000

/-- Helper for pySplit: accumulates the current chunk in reverse. Embeds the
chunking behaviour of CPython str.split() with no separator argument: split on
runs of whitespace, dropping empty chunks. -/
def pySplitGo : List Char → List Char → List (List Char)
  | [], acc => if acc = [] then [] else [acc.reverse]
  | ch :: rest, acc =>
    if isPySpace ch then
      if acc = [] then pySplitGo rest []
      else acc.reverse :: pySplitGo rest []
    else pySplitGo rest (ch :: acc)

/-- Embedding of Python text.split() (split on arbitrary whitespace runs). -/
def pySplit (text : List Char) : List (List Char) :=
  pySplitGo text []

/-- Embedding of Python text.lstrip(chr(0xFEFF)): removes every leading
U+FEFF character. -/
def lstripFEFF : List Char → List Char
  | [] => []
  | ch :: rest => if ch = '\uFEFF' then lstripFEFF rest else ch :: rest

/-- Embedding of BASIC_ASCII_TEXT: the printable ASCII characters
U+0020 through U+007E inclusive (95 characters). -/
def BASIC_ASCII_TEXT : List Char :=
  (List.range 95).map (fun code => Char.ofNat (0x20 + code))

/-- Embedding of BASIC_CJK_PUNCT_TEXT: the 21 CJK punctuation characters of
the source constant, ending with the full-width space U+3000. -/
def BASIC_CJK_PUNCT_TEXT : List Char :=
  ['，', '。', '！', '？', '、', '；', '：',
   '‘', '’', '“', '”', '《', '》', '【',
   '】', '（', '）', '—', '…', '·', '\u3000']

/-- Embedding of the source function of the same name: concatenates the
primary text with the optional augmentation constants. -/
def _build_subset_text (primary_text : List Char)
    (include_basic_ascii : Bool) (include_basic_cjk_punct : Bool) : List Char :=
  let final_text := primary_text
  let final_text := if include_basic_ascii then final_text ++ BASIC_ASCII_TEXT else final_text
  let final_text := if include_basic_cjk_punct then final_text ++ BASIC_CJK_PUNCT_TEXT else final_text
  final_text

/-- Errors the pipeline can raise. Both are Python ValueError, raised at two
distinct sites with distinct messages: decodeValueError embeds the ValueError
raised in _read_common_text_from_file when decoding fails (its message carries
the file path and the encoding), and emptyTextValueError embeds the ValueError
raised in _subset_font_by_text when the subset text is empty. -/
inductive ConvError where
  | decodeValueError (file_path : String) (encoding : String) : ConvError
  | emptyTextValueError : ConvError
deriving DecidableEq, Repr

/-- Embedding of the source function of the same name. The result of opening
and decoding the file is passed in: some text models a successful decode of
the file bytes under the requested encoding, none models a
UnicodeDecodeError. On success: strip leading U+FEFF, drop all whitespace
(join of split), and append one U+0020 and one U+3000. -/
def _read_common_text_from_file (file_path : String) (encoding : String)
    (decoded : Option (List Char)) : Except ConvError (List Char) :=
  match decoded with
  | none => .error (.decodeValueError file_path encoding)
  | some text =>
    let normalized_text := lstripFEFF text
    let compact_text := (pySplit normalized_text).flatten
    .ok (compact_text ++ [' ', '\u3000'])

/-- Embedding of the fields that _subset_font_by_text sets on
fontTools subset.Options(). -/
structure SubsetOptions where
  name_IDs : List String
  name_languages : List String
  layout_features : List String
  notdef_glyph : Bool
  notdef_outline : Bool
  recommended_glyphs : Bool
deriving DecidableEq, Repr

/-- The fixed options profile that _subset_font_by_text always constructs. -/
def subsetOptionsProfile : SubsetOptions :=
  { name_IDs := ["*"]
    name_languages := ["*"]
    layout_features := ["*"]
    notdef_glyph := true
    notdef_outline := true
    recommended_glyphs := true }

/-- One call into the external fontTools subsetter: the options it was
constructed with and the text passed to Subsetter.populate. -/
structure SubsetInvocation where
  options : SubsetOptions
  text : List Char
deriving DecidableEq, Repr

/-- The in-memory font object. The signature field records the internal sfnt
signature tag of the loaded file (the tag "OTTO" marks a CFF-based font); the
glyphs field stands for the glyph repertoire; flavor is the fontTools flavor
attribute, initially none for a plain TTF. The pipeline under test never reads
the signature or the glyphs. -/
structure Font where
  signature : String
  glyphs : List Char
  flavor : Option String
deriving DecidableEq, Repr

/-- The external Transform Engine capability subsetInPlace: given the font and
the subset text, produce the rewritten font. It is an opaque parameter of the
pipeline; the pipeline only decides whether and with what arguments to call
it. -/
abbrev Engine := Font → List Char → Font

/-- Embedding of the source function of the same name: raises the empty-text
ValueError when the text is empty, otherwise builds the fixed options profile,
hands the text to the subsetter (the engine), and returns the rewritten font
together with a record of the invocation. -/
def _subset_font_by_text (engine : Engine) (font : Font) (text : List Char) :
    Except ConvError (Font × SubsetInvocation) :=
  let cleaned_text := text
  if cleaned_text = [] then .error .emptyTextValueError
  else .ok (engine font cleaned_text,
            { options := subsetOptionsProfile, text := cleaned_text })

/-- A successful run of the pipeline: the subsetter invocation if one
happened, the font object as saved (flavor already assigned), and the path the
output file was written to. -/
structure ConversionOutput where
  subsetInvocation : Option SubsetInvocation
  font : Font
  savedTo : String
deriving DecidableEq, Repr

/-- Embedding of the source function of the same name. The font argument is
the result of TTFont(input_path); readf models opening and decoding the
common-chars file (none is a UnicodeDecodeError). Control flow follows the
source exactly: if common_text is given, build the subset text from it and
subset; otherwise if common_chars_path is given, read the file, build, and
subset; otherwise do nothing. Then set flavor to woff2 and save. An error
propagates before the save, so no output is written on error. -/
def ttf_to_woff2 (engine : Engine) (font : Font)
    (readf : String → Option (List Char)) (output_path : String)
    (common_chars_path : Option String) (common_text : Option (List Char))
    (include_basic_ascii : Bool) (include_basic_cjk_punct : Bool)
    (common_chars_encoding : String) : Except ConvError ConversionOutput :=
  let subsetted : Except ConvError (Font × Option SubsetInvocation) :=
    match common_text with
    | some t =>
      let final_text := _build_subset_text t include_basic_ascii include_basic_cjk_punct
      (_subset_font_by_text engine font final_text).map (fun fi => (fi.1, some fi.2))
    | none =>
      match common_chars_path with
      | some p =>
        match _read_common_text_from_file p common_chars_encoding (readf p) with
        | .error e => .error e
        | .ok file_text =>
          let final_text := _build_subset_text file_text include_basic_ascii include_basic_cjk_punct
          (_subset_font_by_text engine font final_text).map (fun fi => (fi.1, some fi.2))
      | none => .ok (font, none)
  subsetted.map (fun fi =>
    { subsetInvocation := fi.2
      font := { fi.1 with flavor := some "woff2" }
      savedTo := output_path })

/-- A trivial engine instance (identity on the font), used to instantiate
closed statements. -/
def idEngine : Engine := fun font _ => font

/-- A sample loaded TrueType font. -/
def sampleFont : Font :=
  { signature := "ttfglyf", glyphs := ['A', 'B', 'C', 'x'], flavor := none }

/-- A sample loaded font whose internal signature is the CFF container marker
"OTTO". -/
def cffFont : Font :=
  { signature := "OTTO", glyphs := ['A', 'B', 'C'], flavor := none }

theorem flatten_pySplitGo (l : List Char) :
    ∀ acc : List Char,
      (pySplitGo l acc).flatten = acc.reverse ++ l.filter (fun ch => !(isPySpace ch)) := by
  induction l with
  | nil =>
    intro acc
    by_cases h : acc = []
    · simp [pySplitGo, h]
    · simp [pySplitGo, h]
  | cons ch rest ih =>
    intro acc
    by_cases hs : isPySpace ch
    · by_cases h : acc = []
      · simp [pySplitGo, hs, h, ih]
      · simp [pySplitGo, hs, h, ih]
    · simp [pySplitGo, hs, ih (ch :: acc)]

theorem flatten_pySplit (l : List Char) :
    (pySplit l).flatten = l.filter (fun ch => !(isPySpace ch)) := by
  simpa using flatten_pySplitGo l []

theorem basic_ascii_ne_nil : BASIC_ASCII_TEXT ≠ [] := by decide

theorem basic_cjk_ne_nil : BASIC_CJK_PUNCT_TEXT ≠ [] := by decide

theorem build_subset_text_eq_nil (t : List Char) (a c : Bool) :
    _build_subset_text t a c = [] ↔ t = [] ∧ a = false ∧ c = false := by
  cases a <;> cases c <;>
    simp [_build_subset_text, basic_ascii_ne_nil, basic_cjk_ne_nil]

theorem lstripFEFF_of_all_space (l : List Char)
    (h : ∀ ch ∈ l, isPySpace ch = true) : lstripFEFF l = l := by
  cases l with
  | nil => rfl
  | cons ch rest =>
    have hch : isPySpace ch = true := h ch (List.mem_cons_self ch rest)
    have : ch ≠ '\uFEFF' := by
      intro he; rw [he] at hch; exact absurd hch (by decide)
    simp [lstripFEFF, this]

theorem build_subset_text_eq_append (t : List Char) (a c : Bool) :
    _build_subset_text t a c
      = t ++ (if a then BASIC_ASCII_TEXT else [])
          ++ (if c then BASIC_CJK_PUNCT_TEXT else []) := by
  cases a <;> cases c <;> simp [_build_subset_text]

/-- Whether a pipeline result is a success (font.save was reached and the
output file written) rather than a raised exception. -/
def isOkResult {α : Type} : Except ConvError α → Bool
  | .ok _ => true
  | .error _ => false

theorem isOkResult_map {α β : Type} (f : α → β) (x : Except ConvError α) :
    isOkResult (x.map f) = isOkResult x := by
  cases x <;> rfl

theorem isOk_subset_font_by_text (engine : Engine) (font : Font) (text : List Char) :
    isOkResult (_subset_font_by_text engine font text)
      = if text = [] then false else true := by
  by_cases ht : text = [] <;> simp [_subset_font_by_text, ht, isOkResult]

theorem subset_font_by_text_ok (engine : Engine) (font : Font) (text : List Char)
    (font2 : Font) (inv : SubsetInvocation)
    (h : _subset_font_by_text engine font text = .ok (font2, inv)) :
    inv = { options := subsetOptionsProfile, text := text } := by
  by_cases ht : text = []
  · simp [_subset_font_by_text, ht] at h
  · simp [_subset_font_by_text, ht] at h
    exact h.2.symm

theorem ttf_isOk_font_independent (engine : Engine) (f1 f2 : Font)
    (readf : String → Option (List Char)) (o enc : String)
    (cc : Option String) (ct : Option (List Char)) (a c : Bool) :
    isOkResult (ttf_to_woff2 engine f1 readf o cc ct a c enc)
      = isOkResult (ttf_to_woff2 engine f2 readf o cc ct a c enc) := by
  cases ct with
  | some t =>
    simp [ttf_to_woff2, isOkResult_map, isOk_subset_font_by_text]
  | none =>
    cases cc with
    | some p =>
      cases hr : readf p with
      | none => simp [ttf_to_woff2, hr, _read_common_text_from_file]
      | some d =>
        simp [ttf_to_woff2, hr, _read_common_text_from_file,
          isOkResult_map, isOk_subset_font_by_text]
    | none => rfl

/-- C5: the computed subsetting repertoire is a function of the inline text
and the flags only. When inline common_text is supplied, runs that differ
solely in the common-chars path, in the file contents (the readf function),
or in the presence of the path at all, produce identical results; the file is
never read. -/
theorem C5_inline_priority (engine : Engine) (font : Font)
    (r1 r2 : String → Option (List Char)) (o enc p1 p2 : String)
    (t : List Char) (a c : Bool) :
    ttf_to_woff2 engine font r1 o (some p1) (some t) a c enc
      = ttf_to_woff2 engine font r2 o (some p2) (some t) a c enc
    ∧ ttf_to_woff2 engine font r1 o (some p1) (some t) a c enc
      = ttf_to_woff2 engine font r1 o none (some t) a c enc :=
  ⟨rfl, rfl⟩

/-- C6: with neither inline text nor a common-chars path, no subsetting step
is invoked (the invocation record is none and the glyph repertoire of the
loaded font is carried through unchanged), the flavor is set to woff2, and
the run succeeds, saving to the output path. -/
theorem C6_no_text_source (engine : Engine) (font : Font)
    (readf : String → Option (List Char)) (o enc : String) (a c : Bool) :
    ttf_to_woff2 engine font readf o none none a c enc
      = .ok { subsetInvocation := none
              font := { font with flavor := some "woff2" }
              savedTo := o } :=
  rfl

/-- C8: building the repertoire from the duplicated text gives the same
code-point set as building it from the text itself. -/
theorem C8_duplicates_collapse (t : List Char) (a c : Bool) :
    (_build_subset_text (t ++ t) a c).toFinset
      = (_build_subset_text t a c).toFinset := by
  cases a <;> cases c <;> simp [_build_subset_text]

/-- C7: every invocation of the subsetting step, whatever the text source or
the flags, carries the fixed options profile: all name IDs, all name
languages, all layout features, notdef glyph and outline retained, and
recommended glyphs retained. -/
theorem C7_fixed_options (engine : Engine) (font : Font)
    (readf : String → Option (List Char)) (o enc : String)
    (cc : Option String) (ct : Option (List Char)) (a c : Bool)
    (out : ConversionOutput) (inv : SubsetInvocation)
    (hok : ttf_to_woff2 engine font readf o cc ct a c enc = .ok out)
    (hinv : out.subsetInvocation = some inv) :
    inv.options = subsetOptionsProfile := by
  cases ct with
  | some t =>
    cases hs : _subset_font_by_text engine font (_build_subset_text t a c) with
    | error e => simp [ttf_to_woff2, hs, Except.map] at hok
    | ok fi =>
      obtain ⟨font2, inv2⟩ := fi
      have h2 := subset_font_by_text_ok engine font _ font2 inv2 hs
      simp [ttf_to_woff2, hs, Except.map] at hok
      rw [← hok] at hinv
      simp at hinv
      rw [← hinv, h2]
  | none =>
    cases cc with
    | some p =>
      cases hr : readf p with
      | none =>
        simp [ttf_to_woff2, hr, _read_common_text_from_file, Except.map] at hok
      | some d =>
        cases hs : _subset_font_by_text engine font
            (_build_subset_text ((pySplit (lstripFEFF d)).flatten ++ [' ', '　']) a c) with
        | error e =>
          simp [ttf_to_woff2, hr, _read_common_text_from_file, hs, Except.map] at hok
        | ok fi =>
          obtain ⟨font2, inv2⟩ := fi
          have h2 := subset_font_by_text_ok engine font _ font2 inv2 hs
          simp [ttf_to_woff2, hr, _read_common_text_from_file, hs, Except.map] at hok
          rw [← hok] at hinv
          simp at hinv
          rw [← hinv, h2]
    | none =>
      simp [ttf_to_woff2, Except.map] at hok
      rw [← hok] at hinv
      simp at hinv

theorem C7_witness :
    ({ options := subsetOptionsProfile, text := ['A'] } : SubsetInvocation).options
      = subsetOptionsProfile :=
  C7_fixed_options idEngine sampleFont (fun _ => none) "o" "utf-8" none (some ['A'])
    false false
    { subsetInvocation := some { options := subsetOptionsProfile, text := ['A'] }
      font := { sampleFont with flavor := some "woff2" }
      savedTo := "o" }
    { options := subsetOptionsProfile, text := ['A'] } rfl rfl

/-- C9: inline common_text enters repertoire building verbatim: the text
handed to the subsetter is exactly the inline string followed by the optional
augmentation constants, with no whitespace splitting, no byte-order-mark
stripping, and no appending of U+0020 or U+3000. -/
theorem C9_inline_verbatim (engine : Engine) (font : Font)
    (readf : String → Option (List Char)) (o enc : String) (cc : Option String)
    (t : List Char) (a c : Bool) (h : t ≠ []) :
    Except.map (fun out => Option.map SubsetInvocation.text out.subsetInvocation)
        (ttf_to_woff2 engine font readf o cc (some t) a c enc)
      = .ok (some (t ++ (if a then BASIC_ASCII_TEXT else [])
          ++ (if c then BASIC_CJK_PUNCT_TEXT else []))) := by
  have hb : _build_subset_text t a c ≠ [] := by
    rw [Ne, build_subset_text_eq_nil]
    intro hfalse
    exact h hfalse.1
  rw [← build_subset_text_eq_append]
  simp [ttf_to_woff2, _subset_font_by_text, hb, Except.map]

theorem C9_witness :
    Except.map (fun out => Option.map SubsetInvocation.text out.subsetInvocation)
        (ttf_to_woff2 idEngine sampleFont (fun _ => none) "o" (some "p")
          (some ['﻿', ' ']) false false "utf-8")
      = .ok (some (['﻿', ' '] ++ (if false then BASIC_ASCII_TEXT else [])
          ++ (if false then BASIC_CJK_PUNCT_TEXT else []))) :=
  C9_inline_verbatim idEngine sampleFont (fun _ => none) "o" "utf-8" (some "p")
    ['﻿', ' '] false false (by decide)

/-- C10: the subsetting step raises the empty-text error exactly on the empty
string; the file reader always returns a text ending in U+0020 then U+3000,
so the error is reachable if and only if inline common_text is the empty
string and both augmentation flags are off. -/
theorem C10_empty_error_characterization (engine : Engine) (font : Font) :
    (∀ text : List Char,
        _subset_font_by_text engine font text = .error .emptyTextValueError
          ↔ text = [])
    ∧ (∀ (p enc : String) (decoded : List Char), ∃ pre : List Char,
        _read_common_text_from_file p enc (some decoded)
          = .ok (pre ++ [' ', '　']))
    ∧ (∀ (readf : String → Option (List Char)) (o enc : String)
        (cc : Option String) (ct : Option (List Char)) (a c : Bool),
        ttf_to_woff2 engine font readf o cc ct a c enc
            = .error .emptyTextValueError
          ↔ (ct = some [] ∧ a = false ∧ c = false)) := by
  refine ⟨?_, ?_, ?_⟩
  · intro text
    by_cases ht : text = [] <;> simp [_subset_font_by_text, ht]
  · intro p enc decoded
    exact ⟨(pySplit (lstripFEFF decoded)).flatten, rfl⟩
  · intro readf o enc cc ct a c
    cases ct with
    | some t =>
      by_cases hb : _build_subset_text t a c = []
      · have hb2 := hb
        rw [build_subset_text_eq_nil] at hb2
        simp [ttf_to_woff2, _subset_font_by_text, hb, Except.map]
        tauto
      · have hb2 : ¬(t = [] ∧ a = false ∧ c = false) := by
          rw [← build_subset_text_eq_nil]; exact hb
        simp [ttf_to_woff2, _subset_font_by_text, hb, Except.map]
        simp at hb2
        tauto
    | none =>
      cases cc with
      | some p =>
        cases hr : readf p with
        | none =>
          simp [ttf_to_woff2, hr, _read_common_text_from_file, Except.map]
        | some d =>
          have hb : _build_subset_text
              ((pySplit (lstripFEFF d)).flatten ++ [' ', '　']) a c ≠ [] := by
            rw [Ne, build_subset_text_eq_nil]
            simp
          simp [ttf_to_woff2, hr, _read_common_text_from_file,
            _subset_font_by_text, hb, Except.map]
      | none => simp [ttf_to_woff2, Except.map]

/-- C1 counterexample: with inline text AB and both augmentation flags off,
the pipeline succeeds and passes exactly the two characters A and B to the
subsetter; the subset text contains neither U+0020 nor U+3000, so the claimed
structural-space invariant and the claimed repertoire of four code points
both fail. -/
theorem C1_counterexample :
    ttf_to_woff2 idEngine sampleFont (fun _ => none) "out.woff2" none
        (some ['A', 'B']) false false "utf-8"
      = .ok { subsetInvocation := some { options := subsetOptionsProfile, text := ['A', 'B'] }
              font := { sampleFont with flavor := some "woff2" }
              savedTo := "out.woff2" }
    ∧ ¬ (' ' ∈ (['A', 'B'] : List Char))
    ∧ ¬ ('　' ∈ (['A', 'B'] : List Char)) :=
  ⟨rfl, by decide, by decide⟩

/-- C1 amended: the structural guarantee of U+0020 and U+3000 holds exactly
for the file-based text source (the reader appends them), for any flag
setting; an inline text source enters unchanged, so for inline text AB with
both flags off the repertoire passed to subsetting is exactly the two
characters A and B. -/
theorem C1_amended_structural_spaces (engine : Engine) (font : Font)
    (o enc p : String) (decoded : List Char) (a c : Bool) :
    (∃ out inv,
        ttf_to_woff2 engine font (fun _ => some decoded) o (some p) none a c enc
            = .ok out
        ∧ out.subsetInvocation = some inv
        ∧ ' ' ∈ inv.text ∧ '　' ∈ inv.text)
    ∧ (∃ out,
        ttf_to_woff2 engine font (fun _ => some decoded) o none (some ['A', 'B'])
            false false enc
          = .ok out
        ∧ out.subsetInvocation
            = some { options := subsetOptionsProfile, text := ['A', 'B'] }) := by
  constructor
  · have hb : _build_subset_text
        ((pySplit (lstripFEFF decoded)).flatten ++ [' ', '　']) a c ≠ [] := by
      rw [Ne, build_subset_text_eq_nil]
      simp
    have heq : ttf_to_woff2 engine font (fun _ => some decoded) o (some p) none a c enc
        = .ok ⟨some ⟨subsetOptionsProfile,
                 _build_subset_text ((pySplit (lstripFEFF decoded)).flatten ++ [' ', '　']) a c⟩,
               { engine font (_build_subset_text
                     ((pySplit (lstripFEFF decoded)).flatten ++ [' ', '　']) a c)
                   with flavor := some "woff2" },
               o⟩ := by
      simp [ttf_to_woff2, _read_common_text_from_file, _subset_font_by_text, hb,
        Except.map]
    refine ⟨_, _, heq, rfl, ?_, ?_⟩
    · rw [build_subset_text_eq_append]
      simp
    · rw [build_subset_text_eq_append]
      simp
  · refine ⟨_, rfl, ?_⟩
    rfl

/-- C2 counterexample: a font whose internal signature is the CFF container
marker OTTO is converted by the same pipeline with no error: the run succeeds
and the output is written, so no MissingCapabilityError is raised (no such
error exists anywhere in the code) and an output file is produced. -/
theorem C2_counterexample :
    cffFont.signature = "OTTO"
    ∧ ttf_to_woff2 idEngine cffFont (fun _ => none) "out.woff2" none none
        true true "utf-8"
      = .ok { subsetInvocation := none
              font := { cffFont with flavor := some "woff2" }
              savedTo := "out.woff2" } :=
  ⟨rfl, rfl⟩

/-- C2 amended: the pipeline performs no format detection at all: whether a
run succeeds or raises never depends on the loaded font (in particular not on
its internal signature), and a CFF-signature font with no text source is
converted successfully, its repertoire carried through, its flavor set to
woff2, and the output written. The error type of the pipeline has no
missing-capability case. -/
theorem C2_amended_no_format_detection (engine : Engine) (font : Font)
    (sig : String) (readf : String → Option (List Char)) (o enc : String)
    (cc : Option String) (ct : Option (List Char)) (a c : Bool) :
    isOkResult (ttf_to_woff2 engine { font with signature := sig } readf o cc ct a c enc)
      = isOkResult (ttf_to_woff2 engine font readf o cc ct a c enc)
    ∧ ttf_to_woff2 engine { font with signature := "OTTO" } readf o none none a c enc
      = .ok { subsetInvocation := none
              font := { font with signature := "OTTO", flavor := some "woff2" }
              savedTo := o } :=
  ⟨ttf_isOk_font_independent engine { font with signature := sig } font readf o enc cc ct a c,
   rfl⟩

/-- C3 counterexample: a common-chars file containing only whitespace, with
both augmentation flags off, does not raise any error: the reader appends
U+0020 and U+3000, so the pipeline subsets to exactly those two characters
and succeeds. -/
theorem C3_counterexample :
    ttf_to_woff2 idEngine sampleFont (fun _ => some ['\n', ' ', '\t']) "o"
        (some "common_chars.txt") none false false "utf-8"
      = .ok { subsetInvocation := some { options := subsetOptionsProfile, text := [' ', '　'] }
              font := { sampleFont with flavor := some "woff2" }
              savedTo := "o" } :=
  rfl

/-- C3 amended: a file-based text source that is empty after normalization
never raises the empty-repertoire error; with both flags off the pipeline
subsets to exactly U+0020 and U+3000 and succeeds. The error is raised only
for an inline empty common_text with both flags off. -/
theorem C3_amended_whitespace_file_no_error (engine : Engine) (font : Font)
    (o p enc : String) (decoded : List Char)
    (h : ∀ ch ∈ decoded, isPySpace ch = true) :
    ttf_to_woff2 engine font (fun _ => some decoded) o (some p) none
        false false enc
      = .ok { subsetInvocation := some { options := subsetOptionsProfile, text := [' ', '　'] }
              font := { engine font [' ', '　'] with flavor := some "woff2" }
              savedTo := o } := by
  have h1 : lstripFEFF decoded = decoded := lstripFEFF_of_all_space decoded h
  have h2 : (pySplit decoded).flatten = [] := by
    rw [flatten_pySplit]
    rw [List.filter_eq_nil_iff]
    intro ch hch
    simp [h ch hch]
  simp [ttf_to_woff2, _read_common_text_from_file, h1, h2, _build_subset_text,
    _subset_font_by_text, Except.map]

theorem C3_amended_witness :
    ttf_to_woff2 idEngine sampleFont (fun _ => some ['\n']) "o" (some "p") none
        false false "utf-8"
      = .ok { subsetInvocation := some { options := subsetOptionsProfile, text := [' ', '　'] }
              font := { idEngine sampleFont [' ', '　'] with flavor := some "woff2" }
              savedTo := "o" } :=
  C3_amended_whitespace_file_no_error idEngine sampleFont "o" "p" "utf-8" ['\n']
    (by decide)

/-- C4 counterexample: a decodable file whose text carries U+FEFF after the
first character (for instance the UTF-8 bytes 61 EF BB BF 62, decoding to
the three characters a, U+FEFF, b) normalizes to a text that still contains
the byte-order-mark character, and the result also contains whitespace (the
appended U+0020), so both universal claims fail. -/
theorem C4_counterexample :
    _read_common_text_from_file "common.txt" "utf-8" (some ['a', '﻿', 'b'])
      = .ok ['a', '﻿', 'b', ' ', '　']
    ∧ '﻿' ∈ (['a', '﻿', 'b', ' ', '　'] : List Char)
    ∧ ' ' ∈ (['a', '﻿', 'b', ' ', '　'] : List Char)
    ∧ isPySpace ' ' = true :=
  ⟨rfl, by decide, by decide, rfl⟩

/-- C4 amended: the normalized result is exactly the non-whitespace
characters of the input after stripping leading U+FEFF characters, in order,
followed by one U+0020 and one U+3000; hence it always contains both U+0020
and U+3000, the part coming from the source contains no whitespace, but a
U+FEFF occurring after a non-BOM character is preserved. -/
theorem C4_amended_normalization (p enc : String) (decoded : List Char) :
    _read_common_text_from_file p enc (some decoded)
      = .ok ((lstripFEFF decoded).filter (fun ch => !(isPySpace ch)) ++ [' ', '　'])
    ∧ ' ' ∈ (lstripFEFF decoded).filter (fun ch => !(isPySpace ch)) ++ [' ', '　']
    ∧ '　' ∈ (lstripFEFF decoded).filter (fun ch => !(isPySpace ch)) ++ [' ', '　'] := by
  refine ⟨?_, by simp, by simp⟩
  simp [_read_common_text_from_file, flatten_pySplit]

end FontsTrans
